import Mathlib

/-!
Verification of the `submit.py` application-submission program.

Strings are modelled as lists of Unicode code points (`List Nat`), byte
sequences as lists of naturals below 256.  The definitions below are shallow
embeddings of the functions in `src/submit.py` together with the pieces of the
Python standard library they rely on (`json.dumps`, `json.loads`,
`str.encode("utf-8")`, `hmac`/`hashlib.sha256`, `os.environ`,
`urllib.request`).
-/

namespace Submit

/-- Code points of a Lean string literal; used to transcribe Python string
literals into the `List Nat` representation of strings. -/
def ofStr (s : String) : List Nat := s.data.map Char.toNat

/-- Strict lexicographic order on lists of naturals.  On code-point lists this
is Python's `<` on `str`; on byte lists it is ascending byte-wise order. -/
def lexLt : List Nat → List Nat → Bool
  | _, [] => false
  | [], _ :: _ => true
  | a :: as, b :: bs => if a < b then true else if b < a then false else lexLt as bs

/-- A Unicode scalar value: a code point encodable by `str.encode("utf-8")`. -/
def ValidChar (c : Nat) : Prop := c < 0x110000 ∧ (c < 0xD800 ∨ 0xDFFF < c)

instance (c : Nat) : Decidable (ValidChar c) := by
  unfold ValidChar; infer_instance

/-- All code points of the string are Unicode scalar values. -/
def ValidStr (s : List Nat) : Prop := ∀ c ∈ s, ValidChar c

instance (s : List Nat) : Decidable (ValidStr s) := by
  unfold ValidStr; infer_instance

/-- UTF-8 encoding of a single code point (`str.encode("utf-8")`, per scalar
value). -/
def utf8Char (c : Nat) : List Nat :=
  if c < 0x80 then [c]
  else if c < 0x800 then [0xC0 + c / 0x40, 0x80 + c % 0x40]
  else if c < 0x10000 then
    [0xE0 + c / 0x1000, 0x80 + c / 0x40 % 0x40, 0x80 + c % 0x40]
  else [0xF0 + c / 0x40000, 0x80 + c / 0x1000 % 0x40, 0x80 + c / 0x40 % 0x40,
    0x80 + c % 0x40]

/-- UTF-8 encoding of a whole string (`str.encode("utf-8")`). -/
def utf8Str (s : List Nat) : List Nat := (s.map utf8Char).flatten

/-- One lowercase hexadecimal digit character. -/
def hexDigit (d : Nat) : Nat := if d < 10 then 48 + d else 87 + d

/-- A `\uXXXX` escape sequence (lowercase hex) for a code unit `n`. -/
def uEsc (n : Nat) : List Nat :=
  [0x5C, 0x75, hexDigit (n / 0x1000 % 16), hexDigit (n / 0x100 % 16),
    hexDigit (n / 16 % 16), hexDigit (n % 16)]

/-- JSON string escaping of one character as performed by `json.dumps` with
`ensure_ascii=False` (the call in `canonical_json`): `"`, `\` and the control
characters below 0x20 are escaped, everything else is kept as-is. -/
def escChar (c : Nat) : List Nat :=
  if c = 0x22 then [0x5C, 0x22]
  else if c = 0x5C then [0x5C, 0x5C]
  else if c = 0x08 then [0x5C, 0x62]
  else if c = 0x09 then [0x5C, 0x74]
  else if c = 0x0A then [0x5C, 0x6E]
  else if c = 0x0C then [0x5C, 0x66]
  else if c = 0x0D then [0x5C, 0x72]
  else if c < 0x20 then uEsc c
  else [c]

/-- JSON string escaping of one character as performed by `json.dumps` with
the default `ensure_ascii=True`: like `escChar` on printable ASCII, but every
character outside `0x20..0x7E` becomes one or two `\uXXXX` escapes. -/
def escCharAscii (c : Nat) : List Nat :=
  if c = 0x22 then [0x5C, 0x22]
  else if c = 0x5C then [0x5C, 0x5C]
  else if c = 0x08 then [0x5C, 0x62]
  else if c = 0x09 then [0x5C, 0x74]
  else if c = 0x0A then [0x5C, 0x6E]
  else if c = 0x0C then [0x5C, 0x66]
  else if c = 0x0D then [0x5C, 0x72]
  else if c < 0x20 then uEsc c
  else if c < 0x7F then [c]
  else if c < 0x10000 then uEsc c
  else uEsc (0xD800 + (c - 0x10000) / 0x400) ++ uEsc (0xDC00 + (c - 0x10000) % 0x400)

/-- A payload: a Python `dict` mapping strings to strings, modelled as its
list of key-value pairs. -/
abbrev Payload := List (List Nat × List Nat)

/-- The payload's keys are distinct — automatic for a Python `dict`. -/
def NodupKeys (p : Payload) : Prop := (p.map Prod.fst).Nodup

instance (p : Payload) : Decidable (NodupKeys p) := by
  unfold NodupKeys; infer_instance

/-- A JSON string literal: opening quote, escaped characters, closing quote. -/
def renderStr (esc : Nat → List Nat) (s : List Nat) : List Nat :=
  0x22 :: (s.map esc).flatten ++ [0x22]

/-- One object member, rendered as `"key":"value"` (separator `":"`). -/
def renderMember (esc : Nat → List Nat) (kv : List Nat × List Nat) : List Nat :=
  renderStr esc kv.1 ++ [0x3A] ++ renderStr esc kv.2

/-- Join rendered members with the `","` item separator. -/
def joinComma : List (List Nat) → List Nat
  | [] => []
  | [m] => m
  | m :: m2 :: ms => m ++ 0x2C :: joinComma (m2 :: ms)

/-- A JSON object with the given members in the given order, separated by
`","` with no whitespace anywhere. -/
def renderObj (esc : Nat → List Nat) (q : Payload) : List Nat :=
  [0x7B] ++ joinComma (q.map (renderMember esc)) ++ [0x7D]

/-- Insert one key-value pair into a list sorted by ascending key. -/
def insertPair (x : List Nat × List Nat) : Payload → Payload
  | [] => [x]
  | y :: ys => if lexLt x.1 y.1 then x :: y :: ys else y :: insertPair x ys

/-- The members of the payload sorted by ascending key (`sort_keys=True`). -/
def sortPairs (p : Payload) : Payload := p.foldr insertPair []

/-- The text `json.dumps(payload, separators=(",", ":"), sort_keys=True,
ensure_ascii=False)` produces: the serialized text as a list of code points. -/
def jsonDumps (p : Payload) : List Nat := renderObj escChar (sortPairs p)

/-- Model of `canonical_json` from `src/submit.py`: compact, key-sorted,
non-ASCII-preserving JSON serialization of the payload, as UTF-8 bytes. -/
def canonical_json (p : Payload) : List Nat := utf8Str (jsonDumps p)

/-- The same serialization but with the `json.dumps` default
`ensure_ascii=True`: an ASCII-escaped JSON serialization of the payload,
as UTF-8 bytes (the text is pure ASCII). -/
def canonical_json_ascii (p : Payload) : List Nat :=
  utf8Str (renderObj escCharAscii (sortPairs p))

/-- Non-strict key order between members: `v`'s key is not below `u`'s. -/
def KeyLe (u v : List Nat × List Nat) : Prop := lexLt v.1 u.1 = false

/-- Strict key order between members. -/
def KeyLt (u v : List Nat × List Nat) : Prop := lexLt u.1 v.1 = true

/-- The member keys appear in strictly ascending byte-wise order of their
UTF-8 encodings. -/
def ByteSortedKeys (q : Payload) : Prop :=
  q.Pairwise fun u v => lexLt (utf8Str u.1) (utf8Str v.1) = true

/-- A piece of serialized JSON text: either literal punctuation emitted
verbatim, or one character of a key or value, subject to string escaping. -/
inductive Seg where
  | lit (s : List Nat)
  | chr (c : Nat)
deriving DecidableEq

/-- The text a segment contributes, for a given escape function. -/
def segStr (esc : Nat → List Nat) : Seg → List Nat
  | .lit s => s
  | .chr c => esc c

/-- The text of a whole segment list. -/
def flatSegs (esc : Nat → List Nat) (segs : List Seg) : List Nat :=
  (segs.map (segStr esc)).flatten

/-- The characters of a string, as escape-subject segments. -/
def strSegs (s : List Nat) : List Seg := s.map Seg.chr

/-- The segments of one rendered member `"key":"value"`. -/
def memberSegs (kv : List Nat × List Nat) : List Seg :=
  [Seg.lit [0x22]] ++ strSegs kv.1 ++ [Seg.lit [0x22, 0x3A, 0x22]]
    ++ strSegs kv.2 ++ [Seg.lit [0x22]]

/-- Comma-join at the segment level. -/
def joinSegs : List (List Seg) → List Seg
  | [] => []
  | [m] => m
  | m :: m2 :: ms => m ++ Seg.lit [0x2C] :: joinSegs (m2 :: ms)

/-- The segments of the whole rendered object. -/
def objSegs (q : Payload) : List Seg :=
  [Seg.lit [0x7B]] ++ joinSegs (q.map memberSegs) ++ [Seg.lit [0x7D]]

/-! ### SHA-256 and HMAC (`hashlib.sha256`, `hmac.new(..., hashlib.sha256)`)

Bytes are naturals below 256, 32-bit words are naturals reduced modulo
`2 ^ 32` after every operation. -/
/-- Truncation to a 32-bit word. -/
def w32 (x : Nat) : Nat := x % 4294967296

/-- Right rotation of a 32-bit word, expressed arithmetically (low bits move
to the top, high bits move down; the two parts do not overlap). -/
def rotr (n x : Nat) : Nat := x / 2 ^ n + x % 2 ^ n * 2 ^ (32 - n)

def bsig0 (x : Nat) : Nat := Nat.xor (Nat.xor (rotr 2 x) (rotr 13 x)) (rotr 22 x)

def bsig1 (x : Nat) : Nat := Nat.xor (Nat.xor (rotr 6 x) (rotr 11 x)) (rotr 25 x)

def ssig0 (x : Nat) : Nat := Nat.xor (Nat.xor (rotr 7 x) (rotr 18 x)) (x / 2 ^ 3)

def ssig1 (x : Nat) : Nat := Nat.xor (Nat.xor (rotr 17 x) (rotr 19 x)) (x / 2 ^ 10)

def chF (x y z : Nat) : Nat :=
  Nat.xor (Nat.land x y) (Nat.land (Nat.xor x 4294967295) z)

def majF (x y z : Nat) : Nat :=
  Nat.xor (Nat.xor (Nat.land x y) (Nat.land x z)) (Nat.land y z)

/-- The 64 SHA-256 round constants. -/
def K : List Nat :=
  [1116352408, 1899447441, 3049323471, 3921009573,
    961987163, 1508970993, 2453635748, 2870763221,
    3624381080, 310598401, 607225278, 1426881987,
    1925078388, 2162078206, 2614888103, 3248222580,
    3835390401, 4022224774, 264347078, 604807628,
    770255983, 1249150122, 1555081692, 1996064986,
    2554220882, 2821834349, 2952996808, 3210313671,
    3336571891, 3584528711, 113926993, 338241895,
    666307205, 773529912, 1294757372, 1396182291,
    1695183700, 1986661051, 2177026350, 2456956037,
    2730485921, 2820302411, 3259730800, 3345764771,
    3516065817, 3600352804, 4094571909, 275423344,
    430227734, 506948616, 659060556, 883997877,
    958139571, 1322822218, 1537002063, 1747873779,
    1955562222, 2024104815, 2227730452, 2361852424,
    2428436474, 2756734187, 3204031479, 3329325298]

/-- The eight 32-bit working registers of SHA-256. -/
structure Hash8 where
  r0 : Nat
  r1 : Nat
  r2 : Nat
  r3 : Nat
  r4 : Nat
  r5 : Nat
  r6 : Nat
  r7 : Nat

/-- The SHA-256 initial hash value. -/
def initH : Hash8 :=
  ⟨0x6a09e667, 0xbb67ae85, 0x3c6ef372, 0xa54ff53a,
    0x510e527f, 0x9b05688c, 0x1f83d9ab, 0x5be0cd19⟩

/-- Big-endian 32-bit words from bytes. -/
def toWords : List Nat → List Nat
  | b0 :: b1 :: b2 :: b3 :: rest =>
    (((b0 * 256 + b1) * 256 + b2) * 256 + b3) :: toWords rest
  | _ => []

/-- Extend the 16 block words to the 64-entry message schedule.  The
accumulator holds the words produced so far, most recent first. -/
def extendSchedule : Nat → List Nat → List Nat
  | 0, acc => acc.reverse
  | n + 1, acc =>
    let v := w32 (ssig1 (acc.getD 1 0) + acc.getD 6 0
      + ssig0 (acc.getD 14 0) + acc.getD 15 0)
    extendSchedule n (v :: acc)

/-- One SHA-256 round, fed one round constant and one schedule word. -/
def shaRound (s : Hash8) (kw : Nat × Nat) : Hash8 :=
  let t1 := w32 (s.r7 + bsig1 s.r4 + chF s.r4 s.r5 s.r6 + kw.1 + kw.2)
  let t2 := w32 (bsig0 s.r0 + majF s.r0 s.r1 s.r2)
  ⟨w32 (t1 + t2), s.r0, s.r1, s.r2, w32 (s.r3 + t1), s.r4, s.r5, s.r6⟩

/-- SHA-256 compression of one 64-byte block. -/
def compressBlock (s : Hash8) (block : List Nat) : Hash8 :=
  let ws := extendSchedule 48 (toWords block).reverse
  let r := (K.zip ws).foldl shaRound s
  ⟨w32 (s.r0 + r.r0), w32 (s.r1 + r.r1), w32 (s.r2 + r.r2), w32 (s.r3 + r.r3),
    w32 (s.r4 + r.r4), w32 (s.r5 + r.r5), w32 (s.r6 + r.r6), w32 (s.r7 + r.r7)⟩

/-- The message bit length as eight big-endian bytes. -/
def lenBytes (L : Nat) : List Nat :=
  let B := 8 * L
  [B / 2 ^ 56 % 256, B / 2 ^ 48 % 256, B / 2 ^ 40 % 256, B / 2 ^ 32 % 256,
    B / 2 ^ 24 % 256, B / 2 ^ 16 % 256, B / 2 ^ 8 % 256, B % 256]

/-- SHA-256 padding: a `0x80` byte, zeros to 56 mod 64, the 64-bit length. -/
def padMsg (msg : List Nat) : List Nat :=
  msg ++ 0x80 :: (List.replicate ((119 - msg.length % 64) % 64) 0
    ++ lenBytes msg.length)

/-- Split into 64-byte blocks; the fuel is an upper bound on the number of
steps (any value at least the list length works). -/
def toBlocks : Nat → List Nat → List (List Nat)
  | 0, _ => []
  | _ + 1, [] => []
  | fuel + 1, l => l.take 64 :: toBlocks fuel (l.drop 64)

/-- The four big-endian bytes of a 32-bit word. -/
def wordBytes (x : Nat) : List Nat :=
  [x / 2 ^ 24 % 256, x / 2 ^ 16 % 256, x / 2 ^ 8 % 256, x % 256]

/-- Model of `hashlib.sha256(msg).digest()`: the 32-byte SHA-256 digest. -/
def sha256 (msg : List Nat) : List Nat :=
  let padded := padMsg msg
  let fin := (toBlocks padded.length padded).foldl compressBlock initH
  ([fin.r0, fin.r1, fin.r2, fin.r3, fin.r4, fin.r5, fin.r6, fin.r7].map
    wordBytes).flatten

/-- Model of `hmac.new(key, msg, hashlib.sha256).digest()` (RFC 2104, block
size 64). -/
def hmacSha256 (key msg : List Nat) : List Nat :=
  let k0 := if 64 < key.length then sha256 key else key
  let kp := k0 ++ List.replicate (64 - k0.length) 0
  sha256 ((kp.map fun b => Nat.xor b 0x5C)
    ++ sha256 ((kp.map fun b => Nat.xor b 0x36) ++ msg))

/-- Lowercase hex encoding of a byte string (`.hexdigest()`). -/
def hexBytes (bs : List Nat) : List Nat :=
  (bs.map fun b => [hexDigit (b / 16 % 16), hexDigit (b % 16)]).flatten

/-- Model of `generate_signature` from `src/submit.py`:
`"sha256=" + hmac.new(secret.encode("utf-8"), body, hashlib.sha256).hexdigest()`. -/
def generate_signature (secret body : List Nat) : List Nat :=
  ofStr "sha256=" ++ hexBytes (hmacSha256 (utf8Str secret) body)

/-- A lowercase hexadecimal digit character (`0`-`9` or `a`-`f`). -/
def IsLowerHexChar (c : Nat) : Prop := (48 ≤ c ∧ c ≤ 57) ∨ (97 ≤ c ∧ c ≤ 102)

instance (c : Nat) : Decidable (IsLowerHexChar c) := by
  unfold IsLowerHexChar; infer_instance

/-! ### `json.loads` (the parts of the Python `json` module the program uses) -/
/-- A Python value produced by `json.loads`.  Numeric literals keep their
textual form (including `NaN`/`Infinity`, which `json.loads` accepts). -/
inductive Json where
  | null
  | bool (b : Bool)
  | num (tok : List Nat)
  | str (s : List Nat)
  | arr (xs : List Json)
  | obj (kvs : List (List Nat × Json))

/-- JSON whitespace. -/
def isWsC (c : Nat) : Bool := c == 0x20 || c == 0x09 || c == 0x0A || c == 0x0D

def skipWs (l : List Nat) : List Nat := l.dropWhile isWsC

def isDigitC (c : Nat) : Bool := decide (0x30 ≤ c ∧ c ≤ 0x39)

/-- Value of one hexadecimal digit character. -/
def hexVal (c : Nat) : Option Nat :=
  if 0x30 ≤ c ∧ c ≤ 0x39 then some (c - 0x30)
  else if 0x41 ≤ c ∧ c ≤ 0x46 then some (c - 0x37)
  else if 0x61 ≤ c ∧ c ≤ 0x66 then some (c - 0x57)
  else none

def hex4 (a b c d : Nat) : Option Nat := do
  let va ← hexVal a
  let vb ← hexVal b
  let vc ← hexVal c
  let vd ← hexVal d
  pure (((va * 16 + vb) * 16 + vc) * 16 + vd)

/-- Short escape sequences inside JSON strings. -/
def escMap (e : Nat) : Option Nat :=
  if e = 0x22 then some 0x22
  else if e = 0x5C then some 0x5C
  else if e = 0x2F then some 0x2F
  else if e = 0x62 then some 0x08
  else if e = 0x66 then some 0x0C
  else if e = 0x6E then some 0x0A
  else if e = 0x72 then some 0x0D
  else if e = 0x74 then some 0x09
  else none

/-- Parse a JSON string body after the opening quote, handling escapes,
`\uXXXX` code units, surrogate pairs, and the strict rejection of raw
control characters; returns the string and the remaining input. -/
def parseStringBody : Nat → List Nat → Option (List Nat × List Nat)
  | 0, _ => none
  | _ + 1, [] => none
  | _ + 1, 0x22 :: rest => some ([], rest)
  | fuel + 1, 0x5C :: 0x75 :: h1 :: h2 :: h3 :: h4 :: rest =>
    match hex4 h1 h2 h3 h4 with
    | none => none
    | some v =>
      if 0xD800 ≤ v ∧ v < 0xDC00 then
        match rest with
        | 0x5C :: 0x75 :: g1 :: g2 :: g3 :: g4 :: rest2 =>
          match hex4 g1 g2 g3 g4 with
          | none => none
          | some v2 =>
            if 0xDC00 ≤ v2 ∧ v2 < 0xE000 then
              (parseStringBody fuel rest2).map fun p =>
                ((0x10000 + (v - 0xD800) * 0x400 + (v2 - 0xDC00)) :: p.1, p.2)
            else
              (parseStringBody fuel rest).map fun p => (v :: p.1, p.2)
        | _ => (parseStringBody fuel rest).map fun p => (v :: p.1, p.2)
      else (parseStringBody fuel rest).map fun p => (v :: p.1, p.2)
  | fuel + 1, 0x5C :: e :: rest =>
    match escMap e with
    | some c => (parseStringBody fuel rest).map fun p => (c :: p.1, p.2)
    | none => none
  | fuel + 1, c :: rest =>
    if c < 0x20 then none
    else (parseStringBody fuel rest).map fun p => (c :: p.1, p.2)

/-- Parse the optional fraction part `.digits`. -/
def parseFrac (l : List Nat) : Option (List Nat × List Nat) :=
  match l with
  | 0x2E :: r =>
    match r.takeWhile isDigitC, r.dropWhile isDigitC with
    | [], _ => none
    | ds, r2 => some (0x2E :: ds, r2)
  | _ => some ([], l)

/-- Parse the optional exponent part `[eE][+-]?digits`. -/
def parseExp (l : List Nat) : Option (List Nat × List Nat) :=
  match l with
  | e :: r =>
    if e = 0x65 ∨ e = 0x45 then
      match (match r with
        | 0x2B :: r1 => ([0x2B], r1)
        | 0x2D :: r1 => ([0x2D], r1)
        | _ => (([] : List Nat), r)) with
      | (sgn, r1) =>
        match r1.takeWhile isDigitC, r1.dropWhile isDigitC with
        | [], _ => none
        | ds, r2 => some (e :: (sgn ++ ds), r2)
    else some ([], e :: r)
  | [] => some ([], [])

/-- Parse a numeric literal (JSON grammar, plus the `-Infinity`/`Infinity`
constants accepted by `json.loads`); keeps the literal's text. -/
def parseNumber (l : List Nat) : Option (Json × List Nat) :=
  match (match l with
    | 0x2D :: r => (([0x2D] : List Nat), r)
    | _ => (([] : List Nat), l)) with
  | (sign, l1) =>
    match l1 with
    | 0x49 :: 0x6E :: 0x66 :: 0x69 :: 0x6E :: 0x69 :: 0x74 :: 0x79 :: rest =>
      some (Json.num (sign ++ ofStr "Infinity"), rest)
    | _ =>
      match l1.takeWhile isDigitC, l1.dropWhile isDigitC with
      | [], _ => none
      | d :: ds, r1 =>
        if d = 0x30 ∧ ds ≠ [] then none
        else
          match parseFrac r1 with
          | none => none
          | some (fr, r2) =>
            match parseExp r2 with
            | none => none
            | some (ex, r3) =>
              some (Json.num (sign ++ (d :: ds) ++ fr ++ ex), r3)

mutual

/-- Parse one JSON value (input must start at a non-whitespace character). -/
def parseValue : Nat → List Nat → Option (Json × List Nat)
  | 0, _ => none
  | fuel + 1, l =>
    match l with
    | [] => none
    | c :: rest =>
      if c = 0x7B then parseObjBody fuel (skipWs rest) []
      else if c = 0x5B then parseArrBody fuel (skipWs rest) []
      else if c = 0x22 then
        (parseStringBody (rest.length + 1) rest).map fun p => (Json.str p.1, p.2)
      else if c = 0x74 then
        match rest with
        | 0x72 :: 0x75 :: 0x65 :: rest2 => some (Json.bool true, rest2)
        | _ => none
      else if c = 0x66 then
        match rest with
        | 0x61 :: 0x6C :: 0x73 :: 0x65 :: rest2 => some (Json.bool false, rest2)
        | _ => none
      else if c = 0x6E then
        match rest with
        | 0x75 :: 0x6C :: 0x6C :: rest2 => some (Json.null, rest2)
        | _ => none
      else if c = 0x4E then
        match rest with
        | 0x61 :: 0x4E :: rest2 => some (Json.num (ofStr "NaN"), rest2)
        | _ => none
      else parseNumber (c :: rest)

/-- Parse the members of an object after `{` (whitespace already skipped);
`acc` holds the members parsed so far. -/
def parseObjBody : Nat → List Nat → List (List Nat × Json) →
    Option (Json × List Nat)
  | 0, _, _ => none
  | _ + 1, 0x7D :: rest, acc =>
    match acc with
    | [] => some (Json.obj [], rest)
    | _ => none
  | fuel + 1, 0x22 :: rest, acc =>
    match parseStringBody (rest.length + 1) rest with
    | none => none
    | some (key, rest2) =>
      match skipWs rest2 with
      | 0x3A :: rest3 =>
        match parseValue fuel (skipWs rest3) with
        | none => none
        | some (v, rest4) =>
          match skipWs rest4 with
          | 0x2C :: rest5 => parseObjBody fuel (skipWs rest5) (acc ++ [(key, v)])
          | 0x7D :: rest5 => some (Json.obj (acc ++ [(key, v)]), rest5)
          | _ => none
      | _ => none
  | _ + 1, _, _ => none

/-- Parse the elements of an array after `[` (whitespace already skipped). -/
def parseArrBody : Nat → List Nat → List Json → Option (Json × List Nat)
  | 0, _, _ => none
  | fuel + 1, l, acc =>
    match l with
    | 0x5D :: rest =>
      match acc with
      | [] => some (Json.arr [], rest)
      | _ => none
    | _ =>
      match parseValue fuel l with
      | none => none
      | some (v, rest2) =>
        match skipWs rest2 with
        | 0x2C :: rest3 => parseArrBody fuel (skipWs rest3) (acc ++ [v])
        | 0x5D :: rest3 => some (Json.arr (acc ++ [v]), rest3)
        | _ => none

end

/-- Model of `json.loads` on a decoded text: parse one value surrounded by optional
whitespace, requiring the whole input to be consumed. -/
def jsonLoads (text : List Nat) : Option Json :=
  match parseValue (2 * text.length + 2) (skipWs text) with
  | some (v, rest) => if skipWs rest = [] then some v else none
  | none => none

/-! ### `bytes.decode("utf-8")`, Python truthiness, `dict` access -/
/-- Strict UTF-8 decoding (`bytes.decode("utf-8")`): rejects truncated and
ill-formed sequences, overlong encodings, surrogates and values above
`0x10FFFF`, exactly like CPython's strict decoder. -/
def utf8Decode : List Nat → Option (List Nat)
  | [] => some []
  | b0 :: rest =>
    if b0 < 0x80 then (utf8Decode rest).map (b0 :: ·)
    else if 0xC2 ≤ b0 ∧ b0 < 0xE0 then
      match rest with
      | b1 :: rest2 =>
        if 0x80 ≤ b1 ∧ b1 < 0xC0 then
          (utf8Decode rest2).map (((b0 - 0xC0) * 0x40 + (b1 - 0x80)) :: ·)
        else none
      | [] => none
    else if 0xE0 ≤ b0 ∧ b0 < 0xF0 then
      match rest with
      | b1 :: b2 :: rest2 =>
        if (if b0 = 0xE0 then 0xA0 ≤ b1 ∧ b1 < 0xC0
            else if b0 = 0xED then 0x80 ≤ b1 ∧ b1 < 0xA0
            else 0x80 ≤ b1 ∧ b1 < 0xC0) ∧ 0x80 ≤ b2 ∧ b2 < 0xC0 then
          (utf8Decode rest2).map
            (((b0 - 0xE0) * 0x1000 + (b1 - 0x80) * 0x40 + (b2 - 0x80)) :: ·)
        else none
      | _ => none
    else if 0xF0 ≤ b0 ∧ b0 ≤ 0xF4 then
      match rest with
      | b1 :: b2 :: b3 :: rest2 =>
        if (if b0 = 0xF0 then 0x90 ≤ b1 ∧ b1 < 0xC0
            else if b0 = 0xF4 then 0x80 ≤ b1 ∧ b1 < 0x90
            else 0x80 ≤ b1 ∧ b1 < 0xC0) ∧ 0x80 ≤ b2 ∧ b2 < 0xC0
            ∧ 0x80 ≤ b3 ∧ b3 < 0xC0 then
          (utf8Decode rest2).map
            (((b0 - 0xF0) * 0x40000 + (b1 - 0x80) * 0x1000
              + (b2 - 0x80) * 0x40 + (b3 - 0x80)) :: ·)
        else none
      | _ => none
    else none

/-- Value of a string of decimal digit characters. -/
def digitsToNat (ds : List Nat) : Nat :=
  ds.foldl (fun acc d => acc * 10 + (d - 0x30)) 0

/-- Whether a numeric literal is truthy after `json.loads` conversion.
Integer tokens become Python `int`s, truthy iff nonzero.  Tokens with a
fraction or exponent become IEEE-754 doubles by correct rounding: writing
the token's exact value as `m * 10 ^ D` (mantissa digits `m`, decimal
exponent `D`), the double is `0.0` — falsy — exactly when `m = 0` or the
value is at most `2 ^ (-1075)`, half the smallest subnormal (the tie rounds
to the even mantissa, that is to zero), so an underflowing token such as
`1e-400` is falsy.  Both cases are the single test below, exact in integer
arithmetic.  `NaN` and the infinities have no mantissa digits and are
truthy. -/
def numTruthy (tok : List Nat) : Bool :=
  let t := match tok with
    | 0x2D :: r => r
    | _ => tok
  let I := t.takeWhile isDigitC
  let r1 := t.dropWhile isDigitC
  if I.isEmpty then true
  else
    let FR : List Nat × List Nat := match r1 with
      | 0x2E :: r => (r.takeWhile isDigitC, r.dropWhile isDigitC)
      | _ => ([], r1)
    let m := digitsToNat (I ++ FR.1)
    if m = 0 then false
    else
      let E : Bool × Nat := match FR.2 with
        | e :: r =>
          if e = 0x65 ∨ e = 0x45 then
            match r with
            | 0x2D :: r2 => (true, digitsToNat (r2.takeWhile isDigitC))
            | 0x2B :: r2 => (false, digitsToNat (r2.takeWhile isDigitC))
            | _ => (false, digitsToNat (r.takeWhile isDigitC))
          else (false, 0)
        | [] => (false, 0)
      let f := FR.1.length
      if E.1 then decide (10 ^ (E.2 + f) < m * 2 ^ 1075)
      else if f ≤ E.2 then true
      else decide (10 ^ (f - E.2) < m * 2 ^ 1075)

/-- Python truthiness of a `json.loads` result (`not data.get("receipt")`
branches on this). -/
def truthy : Json → Bool
  | .null => false
  | .bool b => b
  | .num tok => numTruthy tok
  | .str s => !s.isEmpty
  | .arr xs => !xs.isEmpty
  | .obj kvs => !kvs.isEmpty

def truthyOpt : Option Json → Bool
  | none => false
  | some v => truthy v

/-- Lookup in the member list; the last occurrence wins, matching the
`dict` that `json.loads` builds from duplicate keys. -/
def lookupLast (kvs : List (List Nat × Json)) (key : List Nat) : Option Json :=
  ((kvs.filter fun kv => kv.1 == key).getLast?).map Prod.snd

/-! ### The Python exceptions that can escape `submit.py` -/
/-- A failure raised by `urllib.request.urlopen` itself: connection errors
and timeouts (`URLError`), or a non-success HTTP status, which `urlopen`
raises as `HTTPError` before the `resp.status` check can ever see it. -/
inductive NetErr where
  | timeout
  | connectionError
  | httpError (code : Nat) (body : List Nat)
deriving DecidableEq

/-- The exceptions raised by the embedded code paths. -/
inductive PyErr where
  /-- `RuntimeError(msg)`: raised for the missing-GitHub-variables check and
  for the invalid-response check; the message text carries the details. -/
  | runtimeError (msg : List Nat)
  /-- `KeyError(name)` from `os.environ[name]` when the variable is absent. -/
  | keyError (name : List Nat)
  /-- `UnicodeDecodeError` from `resp.read().decode("utf-8")`. -/
  | unicodeDecodeError
  /-- `json.JSONDecodeError` from `json.loads` on a malformed body. -/
  | jsonDecodeError
  /-- `AttributeError` from `data.get` when `data` is not a dict. -/
  | attributeError
  /-- An exception raised by `urlopen` and caught by the `except` block. -/
  | urlError (e : NetErr)
deriving DecidableEq

/-- Model of `data.get(key)`: `AttributeError` unless the value is a dict. -/
def pyGet (d : Json) (key : List Nat) : Except PyErr (Option Json) :=
  match d with
  | .obj kvs => .ok (lookupLast kvs key)
  | _ => .error .attributeError

/-! ### `submit_application` -/
/-- The fixed submission endpoint. -/
def SUBMISSION_URL : List Nat := ofStr "https://b12.io/apply/submission"

/-- The message of the `RuntimeError` raised for an invalid response
(`f"Invalid response: \x7bresp.status\x7d - \x7bresp_body\x7d"`). -/
def invalidResponseMsg (status : Nat) (text : List Nat) : List Nat :=
  ofStr "Invalid response: " ++ ofStr (toString status) ++ ofStr " - " ++ text

/-- The body of `submit_application`'s `try` block applied to the response
`urlopen` returned: decode the raw bytes, `json.loads` the text, test
`resp.status != 200 or not data.get("receipt")` — the `or` short-circuits,
so `data.get` is only evaluated when the status is 200 — and return
`data["receipt"]`. -/
def handleResponse (status : Nat) (raw : List Nat) : Except PyErr Json :=
  match utf8Decode raw with
  | none => .error .unicodeDecodeError
  | some text =>
    match jsonLoads text with
    | none => .error .jsonDecodeError
    | some data =>
      if status ≠ 200 then
        .error (.runtimeError (invalidResponseMsg status text))
      else
        match pyGet data (ofStr "receipt") with
        | .error e => .error e
        | .ok receiptOpt =>
          if truthyOpt receiptOpt = false then
            .error (.runtimeError (invalidResponseMsg status text))
          else
            match receiptOpt with
            | some v => .ok v
            | none => .error (.keyError (ofStr "receipt"))

/-- An HTTP request as assembled by `urllib.request.Request`. -/
structure Request where
  url : List Nat
  data : List Nat
  method : List Nat
  headers : List (List Nat × List Nat)
deriving DecidableEq

/-- What `urlopen` does with a request: the transport is external, so it is
a parameter of the model. -/
inductive HttpOutcome where
  | failure (e : NetErr)
  | response (status : Nat) (body : List Nat)

/-- The request `submit_application` builds for a url, payload and secret. -/
def requestOf (url : List Nat) (payload : Payload) (secret : List Nat) :
    Request :=
  { url := url
    data := canonical_json payload
    method := ofStr "POST"
    headers :=
      [(ofStr "Content-Type", ofStr "application/json; charset=utf-8"),
        (ofStr "X-Signature-256",
          generate_signature secret (canonical_json payload))] }

/-- The lookup `payload.get("action_run_link")` in the diagnostic print. -/
def payloadGet (p : Payload) (key : List Nat) : Option (List Nat) :=
  ((p.filter fun kv => kv.1 == key).getLast?).map Prod.snd

/-- f-string interpolation of an `Option` (`None` prints as `"None"`). -/
def pyStrOpt : Option (List Nat) → List Nat
  | none => ofStr "None"
  | some s => s

/-- The value returned or exception raised by the whole `try`/`urlopen`
exchange, before the `except` block runs. -/
def submitAttempt (net : Request → HttpOutcome) (url : List Nat)
    (payload : Payload) (secret : List Nat) : Except PyErr Json :=
  match net (requestOf url payload secret) with
  | .failure e => .error (.urlError e)
  | .response status raw => handleResponse status raw

/-- The two diagnostic lines printed by the `except` block. -/
def failLines (payload : Payload) (signature : List Nat) : List (List Nat) :=
  [ofStr "Submission failed. Action Link: "
      ++ pyStrOpt (payloadGet payload (ofStr "action_run_link")),
    ofStr "Signature (masked): " ++ signature.take 15 ++ ofStr "..."]

/-- The observable behaviour of one `submit_application` call: its returned
value or (re-raised) exception, the lines it printed, and the requests it
handed to `urlopen`. -/
structure SubmitResult where
  result : Except PyErr Json
  printed : List (List Nat)
  requests : List Request

/-- Model of `submit_application` from `src/submit.py`: encode, sign, POST
once; on
any exception print the two diagnostic lines and re-raise it unchanged. -/
def submit_application (net : Request → HttpOutcome) (url : List Nat)
    (payload : Payload) (secret : List Nat) : SubmitResult :=
  match submitAttempt net url payload secret with
  | .ok r => { result := .ok r, printed := [], requests := [requestOf url payload secret] }
  | .error e =>
    { result := .error e
      printed := failLines payload
        (generate_signature secret (canonical_json payload))
      requests := [requestOf url payload secret] }

/-! ### `get_submission_context` and `main` -/
/-- The dict returned by `get_submission_context`. -/
structure Ctx where
  name : List Nat
  email : List Nat
  resume_link : List Nat
  repository_link : List Nat
  action_run_link : List Nat
  signing_secret : List Nat
deriving DecidableEq

/-- Python truthiness of `os.environ.get(...)`: `None` and `""` are falsy
(`not all([server, repo, run_id])`). -/
def truthyEnv : Option (List Nat) → Bool
  | none => false
  | some s => !s.isEmpty

def missingEnvMsg : List Nat :=
  ofStr "Missing GitHub Actions environment variables; are you running in GitHub Actions?"

/-- Model of `get_submission_context` from `src/submit.py`.  The three GitHub
variables are checked for truthiness together; the four identity variables
are read with `os.environ[...]`, which raises `KeyError` when absent but
accepts the empty string. -/
def get_submission_context (env : String → Option (List Nat)) :
    Except PyErr Ctx :=
  let server := env "GITHUB_SERVER_URL"
  let repo := env "GITHUB_REPOSITORY"
  let run_id := env "GITHUB_RUN_ID"
  if truthyEnv server && truthyEnv repo && truthyEnv run_id then
    let repo_link := server.getD [] ++ ofStr "/" ++ repo.getD []
    match env "NAME" with
    | none => .error (.keyError (ofStr "NAME"))
    | some nm =>
      match env "EMAIL" with
      | none => .error (.keyError (ofStr "EMAIL"))
      | some em =>
        match env "RESUME_LINK" with
        | none => .error (.keyError (ofStr "RESUME_LINK"))
        | some rl =>
          match env "SIGNING_SECRET" with
          | none => .error (.keyError (ofStr "SIGNING_SECRET"))
          | some ss =>
            .ok { name := nm, email := em, resume_link := rl,
                  repository_link := repo_link,
                  action_run_link := repo_link ++ ofStr "/actions/runs/"
                    ++ run_id.getD [],
                  signing_secret := ss }
  else .error (.runtimeError missingEnvMsg)

/-- The context value `get_submission_context` returns when it succeeds. -/
def ctxOf (env : String → Option (List Nat)) : Ctx :=
  { name := (env "NAME").getD []
    email := (env "EMAIL").getD []
    resume_link := (env "RESUME_LINK").getD []
    repository_link := (env "GITHUB_SERVER_URL").getD [] ++ ofStr "/"
      ++ (env "GITHUB_REPOSITORY").getD []
    action_run_link := (env "GITHUB_SERVER_URL").getD [] ++ ofStr "/"
      ++ (env "GITHUB_REPOSITORY").getD [] ++ ofStr "/actions/runs/"
      ++ (env "GITHUB_RUN_ID").getD []
    signing_secret := (env "SIGNING_SECRET").getD [] }

/-- The payload dict built by `main` (the timestamp comes from
`iso_utc_now`, an external input of the model). -/
def mainPayload (ctx : Ctx) (now : List Nat) : Payload :=
  [(ofStr "timestamp", now), (ofStr "name", ctx.name),
    (ofStr "email", ctx.email), (ofStr "resume_link", ctx.resume_link),
    (ofStr "repository_link", ctx.repository_link),
    (ofStr "action_run_link", ctx.action_run_link)]

/-- The observable behaviour of one `main` invocation. -/
structure MainResult where
  result : Except PyErr Json
  printed : List (List Nat)
  requests : List Request

/-- The part of `main` after context assembly succeeded. -/
def mainWithCtx (ctx : Ctx) (now : List Nat)
    (net : Request → HttpOutcome) : MainResult :=
  let sr := submit_application net SUBMISSION_URL (mainPayload ctx now)
    ctx.signing_secret
  match sr.result with
  | .ok r =>
    { result := .ok r
      printed := sr.printed ++ (match r with | .str s => [s] | _ => [])
      requests := sr.requests }
  | .error e =>
    { result := .error e, printed := sr.printed, requests := sr.requests }

/-- Model of `main` from `src/submit.py`: gather context, build the payload,
sign and
transmit, print the receipt.  When context assembly raises, nothing else
runs: no request is made and nothing is printed. -/
def mainRun (env : String → Option (List Nat)) (now : List Nat)
    (net : Request → HttpOutcome) : MainResult :=
  match get_submission_context env with
  | .error e => { result := .error e, printed := [], requests := [] }
  | .ok ctx => mainWithCtx ctx now net

/-- The errors context assembly can raise — the spec's `ConfigurationError`
kind (required fields missing or empty at startup). -/
def isConfigError : PyErr → Bool
  | .runtimeError msg => msg == missingEnvMsg
  | .keyError _ => true
  | _ => false

/-- The seven environment variables the program requires. -/
def RequiredVars : List String :=
  ["GITHUB_SERVER_URL", "GITHUB_REPOSITORY", "GITHUB_RUN_ID",
    "NAME", "EMAIL", "RESUME_LINK", "SIGNING_SECRET"]

/-- The three variables whose emptiness is treated as absence. -/
def GithubVars : List String :=
  ["GITHUB_SERVER_URL", "GITHUB_REPOSITORY", "GITHUB_RUN_ID"]

/-- Concrete environments and transports used as witnesses below. -/
def env_emptyName : String → Option (List Nat) := fun v =>
  if v = "GITHUB_SERVER_URL" then some (ofStr "https://github.com")
  else if v = "GITHUB_REPOSITORY" then some (ofStr "alice/app")
  else if v = "GITHUB_RUN_ID" then some (ofStr "42")
  else if v = "NAME" then some []
  else if v = "EMAIL" then some (ofStr "a@b.c")
  else if v = "RESUME_LINK" then some (ofStr "https://cv.example/a.pdf")
  else if v = "SIGNING_SECRET" then some (ofStr "a")
  else none

/-- Like `env_emptyName` but with an empty `GITHUB_SERVER_URL`. -/
def env_emptyGithub : String → Option (List Nat) := fun v =>
  if v = "GITHUB_SERVER_URL" then some []
  else env_emptyName v

/-- An environment with every variable absent. -/
def env_missing : String → Option (List Nat) := fun _ => none

/-- A transport on which every request times out. -/
def netTimeout : Request → HttpOutcome := fun _ => .failure .timeout

def now0 : List Nat := ofStr "2026-01-06T16:59:37.571Z"

/-- A one-member payload used in concrete counterexamples. -/
def p0kv : Payload := [(ofStr "k", ofStr "v")]

/-! ### Theorems -/

theorem lexLt_nil_right (l : List Nat) : lexLt l [] = false := by
  cases l <;> rfl

theorem lexLt_cons_cons (a b : Nat) (as bs : List Nat) :
    lexLt (a :: as) (b :: bs)
      = if a < b then true else if b < a then false else lexLt as bs := rfl

theorem lexLt_cons_of_lt {a b : Nat} (h : a < b) (as bs : List Nat) :
    lexLt (a :: as) (b :: bs) = true := by
  simp [lexLt_cons_cons, h]

theorem lexLt_cons_of_eq {a : Nat} {as bs : List Nat} (h : lexLt as bs = true) :
    lexLt (a :: as) (a :: bs) = true := by
  simp [lexLt_cons_cons, h]

theorem lexLt_irrefl : ∀ l : List Nat, lexLt l l = false := by
  intro l
  induction l with
  | nil => rfl
  | cons a as ih => simp [lexLt_cons_cons, ih]

theorem lexLt_trans : ∀ a b c : List Nat,
    lexLt a b = true → lexLt b c = true → lexLt a c = true := by
  intro a
  induction a with
  | nil =>
    intro b c hab hbc
    cases c with
    | nil => cases b <;> simp [lexLt_nil_right] at hab hbc
    | cons c cs => rfl
  | cons a as ih =>
    intro b c hab hbc
    cases b with
    | nil => simp [lexLt_nil_right] at hab
    | cons b bs =>
      cases c with
      | nil => simp [lexLt_nil_right] at hbc
      | cons c cs =>
        rw [lexLt_cons_cons] at hab hbc ⊢
        split_ifs at hab hbc ⊢ with h1 h2 h3 h4 h5 h6 <;>
          first
          | rfl
          | omega
          | (exact ih bs cs hab hbc)

theorem lexLt_trichotomy : ∀ a b : List Nat,
    lexLt a b = true ∨ lexLt b a = true ∨ a = b := by
  intro a
  induction a with
  | nil =>
    intro b
    cases b with
    | nil => right; right; rfl
    | cons b bs => left; rfl
  | cons a as ih =>
    intro b
    cases b with
    | nil => right; left; rfl
    | cons b bs =>
      rcases Nat.lt_trichotomy a b with h | h | h
      · left; exact lexLt_cons_of_lt h as bs
      · rcases ih bs with h' | h' | h'
        · left; subst h; exact lexLt_cons_of_eq h'
        · right; left; subst h; exact lexLt_cons_of_eq h'
        · right; right; rw [h, h']
      · right; left; exact lexLt_cons_of_lt h bs as

theorem lexLt_asymm {a b : List Nat}
    (hab : lexLt a b = true) (hba : lexLt b a = true) : False := by
  have := lexLt_trans a b a hab hba
  rw [lexLt_irrefl] at this
  exact Bool.false_ne_true this

theorem lexLt_append_left : ∀ p u v : List Nat,
    lexLt (p ++ u) (p ++ v) = lexLt u v := by
  intro p u v
  induction p with
  | nil => rfl
  | cons a as ih => simp [lexLt_cons_cons, ih]

theorem utf8Char_ne_nil (c : Nat) : utf8Char c ≠ [] := by
  unfold utf8Char
  split_ifs <;> simp

theorem utf8Str_cons (c : Nat) (s : List Nat) :
    utf8Str (c :: s) = utf8Char c ++ utf8Str s := by
  simp [utf8Str]

theorem utf8Str_append (s t : List Nat) :
    utf8Str (s ++ t) = utf8Str s ++ utf8Str t := by
  simp [utf8Str]

theorem lexLt_two {x1 x2 y1 y2 : Nat} (r s : List Nat)
    (h : x1 < y1 ∨ (x1 = y1 ∧ x2 < y2)) :
    lexLt (x1 :: x2 :: r) (y1 :: y2 :: s) = true := by
  rcases h with h | ⟨h1, h2⟩
  · exact lexLt_cons_of_lt h _ _
  · subst h1; exact lexLt_cons_of_eq (lexLt_cons_of_lt h2 _ _)

theorem lexLt_three {x1 x2 x3 y1 y2 y3 : Nat} (r s : List Nat)
    (h : x1 < y1 ∨ (x1 = y1 ∧ (x2 < y2 ∨ (x2 = y2 ∧ x3 < y3)))) :
    lexLt (x1 :: x2 :: x3 :: r) (y1 :: y2 :: y3 :: s) = true := by
  rcases h with h | ⟨h1, h2⟩
  · exact lexLt_cons_of_lt h _ _
  · subst h1; exact lexLt_cons_of_eq (lexLt_two _ _ h2)

theorem lexLt_four {x1 x2 x3 x4 y1 y2 y3 y4 : Nat} (r s : List Nat)
    (h : x1 < y1 ∨ (x1 = y1 ∧ (x2 < y2 ∨ (x2 = y2 ∧
      (x3 < y3 ∨ (x3 = y3 ∧ x4 < y4)))))) :
    lexLt (x1 :: x2 :: x3 :: x4 :: r) (y1 :: y2 :: y3 :: y4 :: s) = true := by
  rcases h with h | ⟨h1, h2⟩
  · exact lexLt_cons_of_lt h _ _
  · subst h1; exact lexLt_cons_of_eq (lexLt_three _ _ h2)

/-- UTF-8 encoding is strictly monotone at the level of single code points,
even in the presence of arbitrary continuations. -/
theorem utf8Char_lt {a b : Nat} (hab : a < b) (r s : List Nat) :
    lexLt (utf8Char a ++ r) (utf8Char b ++ s) = true := by
  unfold utf8Char
  split_ifs <;>
    simp only [List.cons_append, List.nil_append] <;>
      first
      | (exfalso; omega)
      | (apply lexLt_cons_of_lt; omega)
      | (apply lexLt_two; omega)
      | (apply lexLt_three; omega)
      | (apply lexLt_four; omega)

/-- UTF-8 encoding of whole strings preserves strict lexicographic order:
code-point order on strings coincides with byte-wise order on their UTF-8
encodings. -/
theorem lexLt_utf8Str : ∀ {u v : List Nat}, lexLt u v = true →
    lexLt (utf8Str u) (utf8Str v) = true := by
  intro u
  induction u with
  | nil =>
    intro v h
    cases v with
    | nil => exact h
    | cons b bs =>
      obtain ⟨x, xs, hx⟩ := List.exists_cons_of_ne_nil (utf8Char_ne_nil b)
      rw [utf8Str_cons, hx]
      rfl
  | cons a as ih =>
    intro v h
    cases v with
    | nil => rw [lexLt_nil_right] at h; exact absurd h (by simp)
    | cons b bs =>
      rw [lexLt_cons_cons] at h
      rw [utf8Str_cons, utf8Str_cons]
      split_ifs at h with h1 h2
      · exact utf8Char_lt h1 _ _
      · have hab : a = b := by omega
        subst hab
        rw [lexLt_append_left]
        exact ih h

theorem lexLt_false_of_true {a b : List Nat} (h : lexLt a b = true) :
    lexLt b a = false := by
  cases hb : lexLt b a
  · rfl
  · exact (lexLt_asymm h hb).elim

theorem keyLe_trans {u v w : List Nat × List Nat}
    (h1 : KeyLe u v) (h2 : KeyLe v w) : KeyLe u w := by
  unfold KeyLe at h1 h2 ⊢
  cases h : lexLt w.1 u.1
  · rfl
  · exfalso
    rcases lexLt_trichotomy u.1 v.1 with h3 | h3 | h3
    · have htr := lexLt_trans _ _ _ h h3
      rw [htr] at h2
      exact absurd h2 (by simp)
    · rw [h1] at h3
      exact absurd h3 (by simp)
    · rw [h3] at h
      rw [h] at h2
      exact absurd h2 (by simp)

theorem insertPair_perm (x : List Nat × List Nat) (l : Payload) :
    List.Perm (insertPair x l) (x :: l) := by
  induction l with
  | nil => exact List.Perm.refl _
  | cons y ys ih =>
    unfold insertPair
    split_ifs
    · exact List.Perm.refl _
    · exact (ih.cons y).trans (List.Perm.swap x y ys)

theorem sortPairs_perm (p : Payload) : List.Perm (sortPairs p) p := by
  induction p with
  | nil => exact List.Perm.refl _
  | cons x xs ih => exact (insertPair_perm x (sortPairs xs)).trans (ih.cons x)

theorem insertPair_sorted (x : List Nat × List Nat) :
    ∀ {l : Payload}, l.Pairwise KeyLe → (insertPair x l).Pairwise KeyLe := by
  intro l
  induction l with
  | nil => intro _; simp [insertPair, KeyLe]
  | cons y ys ih =>
    intro hp
    rw [List.pairwise_cons] at hp
    obtain ⟨hy, hys⟩ := hp
    unfold insertPair
    split_ifs with hxy
    · rw [List.pairwise_cons]
      refine ⟨?_, List.pairwise_cons.mpr ⟨hy, hys⟩⟩
      intro z hz
      rcases List.mem_cons.mp hz with rfl | hz
      · exact lexLt_false_of_true hxy
      · exact keyLe_trans (lexLt_false_of_true hxy) (hy z hz)
    · rw [List.pairwise_cons]
      refine ⟨?_, ih hys⟩
      intro z hz
      have hz' := (insertPair_perm x ys).mem_iff.mp hz
      rcases List.mem_cons.mp hz' with rfl | hz'
      · exact Bool.eq_false_iff.mpr hxy
      · exact hy z hz'

theorem sortPairs_sorted (p : Payload) : (sortPairs p).Pairwise KeyLe := by
  induction p with
  | nil => exact List.Pairwise.nil
  | cons x xs ih => exact insertPair_sorted x ih

/-- With distinct keys, the sorted member list is strictly sorted by key. -/
theorem sortPairs_sorted_strict {p : Payload} (h : NodupKeys p) :
    (sortPairs p).Pairwise KeyLt := by
  have hs := sortPairs_sorted p
  have hnd : ((sortPairs p).map Prod.fst).Nodup :=
    (((sortPairs_perm p).map Prod.fst).nodup_iff).mpr h
  have hne : (sortPairs p).Pairwise (fun u v => u.1 ≠ v.1) :=
    List.pairwise_map.mp hnd
  refine (hs.and hne).imp ?_
  rintro u v ⟨h1, h2⟩
  rcases lexLt_trichotomy u.1 v.1 with h3 | h3 | h3
  · exact h3
  · unfold KeyLe at h1
    rw [h1] at h3
    exact absurd h3 (by simp)
  · exact absurd h3 h2

/-- Two strictly key-sorted lists with the same members are equal. -/
theorem eq_of_perm_of_sortedKeys : ∀ {l1 l2 : Payload}, List.Perm l1 l2 →
    l1.Pairwise KeyLt → l2.Pairwise KeyLt → l1 = l2 := by
  intro l1
  induction l1 with
  | nil =>
    intro l2 hperm _ _
    exact hperm.nil_eq
  | cons a t1 ih =>
    intro l2 hperm h1 h2
    cases l2 with
    | nil => exact absurd hperm.symm.nil_eq (by simp)
    | cons b t2 =>
      rw [List.pairwise_cons] at h1 h2
      by_cases hab : a = b
      · subst hab
        rw [ih hperm.cons_inv h1.2 h2.2]
      · exfalso
        have ha2 : a ∈ b :: t2 := hperm.subset (List.mem_cons_self a t1)
        have hb1 : b ∈ a :: t1 := hperm.symm.subset (List.mem_cons_self b t2)
        have ha2' : a ∈ t2 := by
          rcases List.mem_cons.mp ha2 with h | h
          · exact absurd h hab
          · exact h
        have hb1' : b ∈ t1 := by
          rcases List.mem_cons.mp hb1 with h | h
          · exact absurd h.symm hab
          · exact h
        exact lexLt_asymm (h1.1 b hb1') (h2.1 a ha2')

/-- Sorting is insensitive to the input order of the members. -/
theorem sortPairs_eq_of_perm {p q : Payload} (hpq : List.Perm p q) (h : NodupKeys p) :
    sortPairs p = sortPairs q := by
  have hq : NodupKeys q := ((hpq.map Prod.fst).nodup_iff).mp h
  exact eq_of_perm_of_sortedKeys
    ((sortPairs_perm p).trans (hpq.trans (sortPairs_perm q).symm))
    (sortPairs_sorted_strict h) (sortPairs_sorted_strict hq)

/-- C1.  `encode` of a payload with distinct keys is the UTF-8 encoding of a
JSON object text whose members are exactly the payload's members arranged in
strictly ascending byte-wise order of their keys, each member rendered as
`"key":"value"` with JSON string escaping applied to key and value, members
separated by a single comma, with no whitespace outside string content
(`renderObj`/`renderMember`/`renderStr` produce exactly those characters and
nothing else); in particular `encode` of the two-member payload
`b ↦ 2, a ↦ 1` yields exactly the bytes of `\x7b"a":"1","b":"2"\x7d`. -/
theorem claim_C1 (p : Payload) (h : NodupKeys p) :
    (List.Perm (sortPairs p) p ∧ ByteSortedKeys (sortPairs p) ∧
      canonical_json p = utf8Str (renderObj escChar (sortPairs p))) ∧
    canonical_json [(ofStr "b", ofStr "2"), (ofStr "a", ofStr "1")]
      = ofStr "\x7b\"a\":\"1\",\"b\":\"2\"\x7d" := by
  refine ⟨⟨sortPairs_perm p, ?_, rfl⟩, by decide⟩
  exact (sortPairs_sorted_strict h).imp fun hlt => lexLt_utf8Str hlt

theorem claim_C1_witness :
    NodupKeys [(ofStr "b", ofStr "2"), (ofStr "a", ofStr "1")] ∧
    ((List.Perm (sortPairs [(ofStr "b", ofStr "2"), (ofStr "a", ofStr "1")])
        [(ofStr "b", ofStr "2"), (ofStr "a", ofStr "1")] ∧
      ByteSortedKeys (sortPairs [(ofStr "b", ofStr "2"), (ofStr "a", ofStr "1")]) ∧
      canonical_json [(ofStr "b", ofStr "2"), (ofStr "a", ofStr "1")]
        = utf8Str (renderObj escChar
            (sortPairs [(ofStr "b", ofStr "2"), (ofStr "a", ofStr "1")]))) ∧
    canonical_json [(ofStr "b", ofStr "2"), (ofStr "a", ofStr "1")]
      = ofStr "\x7b\"a\":\"1\",\"b\":\"2\"\x7d") :=
  ⟨by decide, claim_C1 [(ofStr "b", ofStr "2"), (ofStr "a", ofStr "1")] (by decide)⟩

/-- C2.  The canonical encoder is deterministic: two payloads with the same
key-value pairs (in any insertion order) encode to byte-identical output. -/
theorem claim_C2 (p q : Payload) (hpq : List.Perm p q) (h : NodupKeys p) :
    canonical_json p = canonical_json q := by
  unfold canonical_json jsonDumps
  rw [sortPairs_eq_of_perm hpq h]

theorem claim_C2_witness :
    List.Perm [(ofStr "b", ofStr "2"), (ofStr "a", ofStr "1")]
      [(ofStr "a", ofStr "1"), (ofStr "b", ofStr "2")] ∧
    NodupKeys [(ofStr "b", ofStr "2"), (ofStr "a", ofStr "1")] ∧
    canonical_json [(ofStr "b", ofStr "2"), (ofStr "a", ofStr "1")]
      = canonical_json [(ofStr "a", ofStr "1"), (ofStr "b", ofStr "2")] :=
  ⟨by decide, by decide,
    claim_C2 [(ofStr "b", ofStr "2"), (ofStr "a", ofStr "1")]
      [(ofStr "a", ofStr "1"), (ofStr "b", ofStr "2")] (by decide) (by decide)⟩

/-- The two escape functions agree on all characters below `0x7F`. -/
theorem escChar_agree_low {c : Nat} (h : c < 0x7F) :
    escChar c = escCharAscii c := by
  unfold escChar escCharAscii
  split_ifs <;> (try rfl) <;> omega

/-- The escape of `json.dumps(..., ensure_ascii=False)` keeps every character from `0x7F`
upward as-is in the serialized text. -/
theorem escChar_high {c : Nat} (h : 0x7F ≤ c) : escChar c = [c] := by
  unfold escChar
  split_ifs <;> first | rfl | omega

/-- The first UTF-8 byte of a character from `0x7F` upward is above `0x5C`. -/
theorem utf8Char_head_high {c : Nat} (h : 0x7F ≤ c) :
    ∃ hd tl, utf8Char c = hd :: tl ∧ 0x5C < hd := by
  unfold utf8Char
  split_ifs <;> exact ⟨_, _, rfl, by omega⟩

theorem escCharAscii_eq_uEsc {c : Nat} (h1 : 0x7F ≤ c) (h2 : c < 0x10000) :
    escCharAscii c = uEsc c := by
  unfold escCharAscii
  split_ifs <;> first | omega | rfl

theorem escCharAscii_eq_pair {c : Nat} (h : 0x10000 ≤ c) :
    escCharAscii c = uEsc (0xD800 + (c - 0x10000) / 0x400)
      ++ uEsc (0xDC00 + (c - 0x10000) % 0x400) := by
  unfold escCharAscii
  repeat rw [if_neg (by omega)]

/-- With `ensure_ascii=True`, `json.dumps` escapes every character from `0x7F`
upward, so its serialization starts with a backslash there. -/
theorem escCharAscii_high {c : Nat} (h : 0x7F ≤ c) :
    ∃ tl, escCharAscii c = 0x5C :: tl := by
  rcases Nat.lt_or_ge c 0x10000 with h2 | h2
  · rw [escCharAscii_eq_uEsc h h2]
    exact ⟨_, rfl⟩
  · rw [escCharAscii_eq_pair h2]
    exact ⟨_, rfl⟩

theorem flatSegs_nil (esc : Nat → List Nat) : flatSegs esc [] = [] := rfl

theorem flatSegs_cons (esc : Nat → List Nat) (s : Seg) (rest : List Seg) :
    flatSegs esc (s :: rest) = segStr esc s ++ flatSegs esc rest := by
  simp [flatSegs]

theorem flatSegs_append (esc : Nat → List Nat) (a b : List Seg) :
    flatSegs esc (a ++ b) = flatSegs esc a ++ flatSegs esc b := by
  simp [flatSegs]

theorem flatSegs_strSegs (esc : Nat → List Nat) (s : List Nat) :
    flatSegs esc (strSegs s) = (s.map esc).flatten := by
  simp [flatSegs, strSegs, List.map_map]
  rfl

theorem flatSegs_memberSegs (esc : Nat → List Nat) (kv : List Nat × List Nat) :
    flatSegs esc (memberSegs kv) = renderMember esc kv := by
  simp [memberSegs, flatSegs_nil, flatSegs_cons, flatSegs_append,
    flatSegs_strSegs, renderMember, renderStr, segStr]

theorem flatSegs_joinSegs (esc : Nat → List Nat) : ∀ l : List (List Seg),
    flatSegs esc (joinSegs l) = joinComma (l.map (flatSegs esc))
  | [] => rfl
  | [m] => by simp [joinSegs, joinComma]
  | m :: m2 :: ms => by
    rw [joinSegs, List.map_cons, List.map_cons, joinComma, flatSegs_append,
      flatSegs_cons, ← List.map_cons (flatSegs esc),
      flatSegs_joinSegs esc (m2 :: ms)]
    rfl

theorem flatSegs_objSegs (esc : Nat → List Nat) (q : Payload) :
    flatSegs esc (objSegs q) = renderObj esc q := by
  rw [objSegs, renderObj, flatSegs_append, flatSegs_append,
    flatSegs_joinSegs, List.map_map]
  have hm : (q.map (flatSegs esc ∘ memberSegs)) = q.map (renderMember esc) :=
    List.map_congr_left fun kv _ => flatSegs_memberSegs esc kv
  rw [hm]
  rfl

theorem joinSegs_mem {s : Seg} : ∀ {l : List (List Seg)} {m : List Seg},
    m ∈ l → s ∈ m → s ∈ joinSegs l
  | [], _, hm, _ => absurd hm (List.not_mem_nil _)
  | [_], m, hm, hs => by
    rcases List.mem_cons.mp hm with rfl | h
    · exact hs
    · exact absurd h (List.not_mem_nil _)
  | m0 :: m1 :: ms, m, hm, hs => by
    rw [joinSegs]
    rcases List.mem_cons.mp hm with rfl | h
    · exact List.mem_append_left _ hs
    · exact List.mem_append_right _
        (List.mem_cons_of_mem _ (joinSegs_mem h hs))

theorem memberSegs_mem_chr {kv : List Nat × List Nat} {c : Nat}
    (h : c ∈ kv.1 ∨ c ∈ kv.2) : Seg.chr c ∈ memberSegs kv := by
  rcases h with h | h <;> simp [memberSegs, strSegs] <;> tauto

theorem objSegs_mem_chr {q : Payload} {kv : List Nat × List Nat} {c : Nat}
    (hkv : kv ∈ q) (h : c ∈ kv.1 ∨ c ∈ kv.2) : Seg.chr c ∈ objSegs q := by
  simp only [objSegs, List.mem_append]
  exact Or.inl (Or.inr
    (joinSegs_mem (List.mem_map_of_mem memberSegs hkv) (memberSegs_mem_chr h)))

/-- If any escape-subject character is `0x7F` or above, the raw-UTF-8 and the
ASCII-escaped serializations produce different byte sequences. -/
theorem flatSegs_utf8_ne : ∀ segs : List Seg,
    (∃ c, Seg.chr c ∈ segs ∧ 0x7F ≤ c) →
    utf8Str (flatSegs escChar segs) ≠ utf8Str (flatSegs escCharAscii segs)
  | [], h => absurd h (by simp)
  | s :: rest, h => by
    obtain ⟨c, hmem, hc⟩ := h
    rw [flatSegs_cons, flatSegs_cons, utf8Str_append, utf8Str_append]
    cases s with
    | lit l =>
      intro heq
      have hrest : Seg.chr c ∈ rest := by
        rcases List.mem_cons.mp hmem with h' | h'
        · exact absurd h' (by simp)
        · exact h'
      exact flatSegs_utf8_ne rest ⟨c, hrest, hc⟩ (List.append_cancel_left heq)
    | chr c0 =>
      by_cases h0 : c0 < 0x7F
      · rw [segStr, segStr, escChar_agree_low h0]
        intro heq
        have hrest : Seg.chr c ∈ rest := by
          rcases List.mem_cons.mp hmem with h' | h'
          · have : c = c0 := by injection h'
            omega
          · exact h'
        exact flatSegs_utf8_ne rest ⟨c, hrest, hc⟩ (List.append_cancel_left heq)
      · obtain ⟨hd, tl, henc, hgt⟩ := utf8Char_head_high (c := c0) (by omega)
        obtain ⟨tl', hesc⟩ := escCharAscii_high (c := c0) (by omega)
        rw [segStr, segStr, escChar_high (c := c0) (by omega), hesc]
        have h1 : utf8Str [c0] = hd :: tl := by
          rw [utf8Str, List.map_cons, List.map_nil, List.flatten,
            List.flatten, List.append_nil, henc]
        have h2 : utf8Str (0x5C :: tl') = 0x5C :: utf8Str tl' := by
          rw [utf8Str_cons]
          rfl
        rw [h1, h2]
        intro heq
        rw [List.cons_append, List.cons_append] at heq
        have : hd = 0x5C := by injection heq
        omega

/-- C9.  `canonical_json` keeps non-ASCII characters raw (they reach the
output as their UTF-8 bytes, not as `\uXXXX` escapes), so any payload
containing a non-ASCII character encodes differently from the ASCII-escaped
serialization of the same payload. -/
theorem claim_C9 :
    (∀ c : Nat, 0x80 ≤ c → escChar c = [c]) ∧
    ∀ (p : Payload) (c : Nat), 0x80 ≤ c →
      (∃ kv ∈ p, c ∈ kv.1 ∨ c ∈ kv.2) →
      canonical_json p ≠ canonical_json_ascii p := by
  constructor
  · intro c hc
    exact escChar_high (by omega)
  · rintro p c hc ⟨kv, hkv, hin⟩
    have hkv' : kv ∈ sortPairs p := ((sortPairs_perm p).mem_iff).mpr hkv
    have hne := flatSegs_utf8_ne (objSegs (sortPairs p))
      ⟨c, objSegs_mem_chr hkv' hin, by omega⟩
    rw [flatSegs_objSegs, flatSegs_objSegs] at hne
    exact hne

theorem claim_C9_witness :
    (0x80 ≤ 0x20AC ∧ escChar 0x20AC = [0x20AC]) ∧
    (∃ kv ∈ [(ofStr "k", [0x20AC])], 0x20AC ∈ kv.1 ∨ 0x20AC ∈ kv.2) ∧
    canonical_json [(ofStr "k", [0x20AC])]
      ≠ canonical_json_ascii [(ofStr "k", [0x20AC])] :=
  ⟨⟨by decide, claim_C9.1 0x20AC (by decide)⟩, ⟨(ofStr "k", [0x20AC]), by decide⟩,
    claim_C9.2 [(ofStr "k", [0x20AC])] 0x20AC (by decide)
      ⟨(ofStr "k", [0x20AC]), by decide⟩⟩

theorem hexDigit_isHex {d : Nat} (h : d < 16) : IsLowerHexChar (hexDigit d) := by
  unfold hexDigit IsLowerHexChar
  split_ifs <;> omega

theorem sha256_length (msg : List Nat) : (sha256 msg).length = 32 := by
  unfold sha256
  simp [wordBytes]

theorem hmacSha256_length (key msg : List Nat) :
    (hmacSha256 key msg).length = 32 := by
  unfold hmacSha256
  exact sha256_length _

theorem hexBytes_length (bs : List Nat) : (hexBytes bs).length = 2 * bs.length := by
  induction bs with
  | nil => rfl
  | cons b bs ih =>
    simp [hexBytes] at ih ⊢
    omega

theorem hexBytes_isHex (bs : List Nat) : ∀ c ∈ hexBytes bs, IsLowerHexChar c := by
  intro c hc
  rw [hexBytes, List.mem_flatten] at hc
  obtain ⟨l, hl, hcl⟩ := hc
  rw [List.mem_map] at hl
  obtain ⟨b, _, rfl⟩ := hl
  rcases List.mem_cons.mp hcl with rfl | hcl
  · exact hexDigit_isHex (by omega)
  · rcases List.mem_cons.mp hcl with rfl | hcl
    · exact hexDigit_isHex (by omega)
    · exact absurd hcl (List.not_mem_nil _)

/-- C3.  `generate_signature` returns exactly the string `sha256=` followed
by the lowercase hexadecimal encoding — exactly 64 hex characters — of the
HMAC-SHA256 digest computed with key `utf8(secret)` over the body bytes. -/
theorem claim_C3 (s b : List Nat) :
    generate_signature s b
        = ofStr "sha256=" ++ hexBytes (hmacSha256 (utf8Str s) b) ∧
      (hexBytes (hmacSha256 (utf8Str s) b)).length = 64 ∧
      ∀ c ∈ hexBytes (hmacSha256 (utf8Str s) b), IsLowerHexChar c := by
  refine ⟨rfl, ?_, hexBytes_isHex _⟩
  rw [hexBytes_length, hmacSha256_length]

theorem claim_C3_witness :
    generate_signature (ofStr "k") (ofStr "\x7b\x7d")
        = ofStr "sha256="
          ++ hexBytes (hmacSha256 (utf8Str (ofStr "k")) (ofStr "\x7b\x7d")) ∧
      (hexBytes (hmacSha256 (utf8Str (ofStr "k")) (ofStr "\x7b\x7d"))).length
        = 64 ∧
      ∀ c ∈ hexBytes (hmacSha256 (utf8Str (ofStr "k")) (ofStr "\x7b\x7d")),
        IsLowerHexChar c :=
  claim_C3 (ofStr "k") (ofStr "\x7b\x7d")

/-- The spec's reference vector: the signature for secret `"k"` and the
two-byte body `"\x7b\x7d"` matches the digest computed independently by
`hmac.new(b"k", b"\x7b\x7d", hashlib.sha256).hexdigest()`. -/
theorem generate_signature_vector :
    generate_signature (ofStr "k") (ofStr "\x7b\x7d")
      = ofStr "sha256=add853b103fbcc936a194f9eb15e29c4ff08af6e47d5d1bca4f20218e31e4fff" := by
  set_option maxRecDepth 10000 in decide

/-- Reference vectors for the float-conversion truthiness of numeric
receipts: an underflowing token parses to `0.0` and is falsy, the smallest
subnormal is truthy, the exact rounds-to-zero tie is falsy, and `NaN` is
truthy — matching `bool(json.loads(tok))` in Python. -/
theorem numTruthy_vectors :
    truthy (Json.num (ofStr "1e-400")) = false ∧
    truthy (Json.num (ofStr "5e-324")) = true ∧
    truthy (Json.num (ofStr "2.4703282292062327e-324")) = false ∧
    truthy (Json.num (ofStr "2.4703282292062328e-324")) = true ∧
    truthy (Json.num (ofStr "0.0")) = false ∧
    truthy (Json.num (ofStr "NaN")) = true := by
  set_option maxRecDepth 100000 in decide

/-- Characterization of successful context assembly: all three GitHub
variables truthy (present and non-empty), the four identity variables
present (empty allowed), and the result is `ctxOf env`. -/
theorem get_ctx_ok_iff (env : String → Option (List Nat)) (ctx : Ctx) :
    get_submission_context env = .ok ctx ↔
      (truthyEnv (env "GITHUB_SERVER_URL") = true ∧
       truthyEnv (env "GITHUB_REPOSITORY") = true ∧
       truthyEnv (env "GITHUB_RUN_ID") = true ∧
       (env "NAME").isSome = true ∧ (env "EMAIL").isSome = true ∧
       (env "RESUME_LINK").isSome = true ∧
       (env "SIGNING_SECRET").isSome = true ∧ ctx = ctxOf env) := by
  unfold get_submission_context
  by_cases hcond : (truthyEnv (env "GITHUB_SERVER_URL")
      && truthyEnv (env "GITHUB_REPOSITORY")
      && truthyEnv (env "GITHUB_RUN_ID")) = true
  · rw [if_pos hcond]
    rw [Bool.and_eq_true, Bool.and_eq_true] at hcond
    obtain ⟨⟨h1, h2⟩, h3⟩ := hcond
    rcases hn : env "NAME" with _ | nm
    · simp [hn]
    · rcases he : env "EMAIL" with _ | em
      · simp [he]
      · rcases hr : env "RESUME_LINK" with _ | rl
        · simp [hr]
        · rcases hs : env "SIGNING_SECRET" with _ | ss
          · simp [hs]
          · simp only [hn, he, hr, hs, h1, h2, h3, Option.isSome_some,
              Option.getD_some, ctxOf, Except.ok.injEq, true_and]
            exact eq_comm
  · rw [if_neg hcond]
    rw [Bool.not_eq_true] at hcond
    constructor
    · intro h
      exact absurd h (by simp)
    · rintro ⟨h1, h2, h3, -⟩
      rw [h1, h2, h3] at hcond
      simp at hcond

/-- Every error raised by context assembly is a configuration error. -/
theorem get_ctx_error_config (env : String → Option (List Nat)) (e : PyErr)
    (h : get_submission_context env = .error e) : isConfigError e = true := by
  simp only [get_submission_context] at h
  split_ifs at h
  · rcases hn : env "NAME" with _ | nm <;> rw [hn] at h
    · cases h; rfl
    · rcases he : env "EMAIL" with _ | em <;> rw [he] at h
      · cases h; rfl
      · rcases hr : env "RESUME_LINK" with _ | rl <;> rw [hr] at h
        · cases h; rfl
        · rcases hs : env "SIGNING_SECRET" with _ | ss <;> rw [hs] at h
          · cases h; rfl
          · cases h
  · cases h
    simp [isConfigError]

theorem mainRun_ctx_error {env : String → Option (List Nat)} {e : PyErr}
    (now : List Nat) (net : Request → HttpOutcome)
    (h : get_submission_context env = .error e) :
    mainRun env now net = { result := .error e, printed := [], requests := [] } := by
  unfold mainRun
  rw [h]

theorem generate_signature_length (s b : List Nat) :
    (generate_signature s b).length = 71 := by
  unfold generate_signature
  rw [List.length_append, hexBytes_length, hmacSha256_length]
  rfl

/-- Context assembly cannot succeed when a required variable is absent, or
when one of the three GitHub variables is present but empty. -/
theorem get_ctx_not_ok {env : String → Option (List Nat)}
    (h : ∃ v ∈ RequiredVars, env v = none ∨ (v ∈ GithubVars ∧ env v = some [])) :
    ∀ ctx, get_submission_context env ≠ .ok ctx := by
  intro ctx hok
  rw [get_ctx_ok_iff] at hok
  obtain ⟨h1, h2, h3, h4, h5, h6, h7, -⟩ := hok
  obtain ⟨v, hv, hbad⟩ := h
  simp only [RequiredVars, List.mem_cons, List.not_mem_nil, or_false] at hv
  rcases hv with rfl | rfl | rfl | rfl | rfl | rfl | rfl
  · rcases hbad with hbad | ⟨-, hbad⟩ <;> rw [hbad] at h1 <;>
      simp [truthyEnv] at h1
  · rcases hbad with hbad | ⟨-, hbad⟩ <;> rw [hbad] at h2 <;>
      simp [truthyEnv] at h2
  · rcases hbad with hbad | ⟨-, hbad⟩ <;> rw [hbad] at h3 <;>
      simp [truthyEnv] at h3
  · rcases hbad with hbad | ⟨hg, -⟩
    · rw [hbad] at h4; simp at h4
    · exact absurd hg (by decide)
  · rcases hbad with hbad | ⟨hg, -⟩
    · rw [hbad] at h5; simp at h5
    · exact absurd hg (by decide)
  · rcases hbad with hbad | ⟨hg, -⟩
    · rw [hbad] at h6; simp at h6
    · exact absurd hg (by decide)
  · rcases hbad with hbad | ⟨hg, -⟩
    · rw [hbad] at h7; simp at h7
    · exact absurd hg (by decide)

/-- When context assembly fails, `main` stops there: the configuration error
is the result, nothing is printed, and no request is issued. -/
theorem mainRun_config_failure {env : String → Option (List Nat)}
    (now : List Nat) (net : Request → HttpOutcome)
    (h : ∃ v ∈ RequiredVars, env v = none ∨ (v ∈ GithubVars ∧ env v = some [])) :
    ∃ e, get_submission_context env = .error e ∧ isConfigError e = true ∧
      mainRun env now net
        = { result := .error e, printed := [], requests := [] } := by
  cases hget : get_submission_context env with
  | ok ctx => exact absurd hget (get_ctx_not_ok h ctx)
  | error e =>
    exact ⟨e, rfl, get_ctx_error_config env e hget,
      mainRun_ctx_error now net hget⟩

/-- C7.  If any required context variable is absent at startup, the program
fails with a configuration error before any network request is attempted:
context assembly raises before `submit_application` is ever called, so the
request list is empty (and nothing is printed). -/
theorem claim_C7 (env : String → Option (List Nat)) (now : List Nat)
    (net : Request → HttpOutcome) (h : ∃ v ∈ RequiredVars, env v = none) :
    ∃ e, get_submission_context env = .error e ∧ isConfigError e = true ∧
      mainRun env now net
        = { result := .error e, printed := [], requests := [] } := by
  refine mainRun_config_failure now net ?_
  obtain ⟨v, hv, hnone⟩ := h
  exact ⟨v, hv, Or.inl hnone⟩

theorem claim_C7_witness :
    (∃ v ∈ RequiredVars, env_missing v = none) ∧
    ∃ e, get_submission_context env_missing = .error e ∧
      isConfigError e = true ∧
      mainRun env_missing now0 netTimeout
        = { result := .error e, printed := [], requests := [] } :=
  ⟨⟨"NAME", by decide, rfl⟩,
    claim_C7 env_missing now0 netTimeout ⟨"NAME", by decide, rfl⟩⟩

/-- C10.  Context assembly treats an empty `GITHUB_SERVER_URL`,
`GITHUB_REPOSITORY` or `GITHUB_RUN_ID` exactly like an absent one (the
configuration `RuntimeError` is raised), while `NAME`, `EMAIL`,
`RESUME_LINK` and `SIGNING_SECRET` fail only when absent: empty-string
values of those four are accepted and propagated into the context. -/
theorem claim_C10 (env : String → Option (List Nat)) :
    ((env "GITHUB_SERVER_URL" = some [] ∨ env "GITHUB_REPOSITORY" = some []
        ∨ env "GITHUB_RUN_ID" = some []) →
      get_submission_context env = .error (.runtimeError missingEnvMsg)) ∧
    ((∃ ctx, get_submission_context env = .ok ctx) ↔
      (truthyEnv (env "GITHUB_SERVER_URL") = true ∧
       truthyEnv (env "GITHUB_REPOSITORY") = true ∧
       truthyEnv (env "GITHUB_RUN_ID") = true ∧
       (env "NAME").isSome = true ∧ (env "EMAIL").isSome = true ∧
       (env "RESUME_LINK").isSome = true ∧
       (env "SIGNING_SECRET").isSome = true)) ∧
    (∀ ctx, get_submission_context env = .ok ctx →
      ctx.name = (env "NAME").getD [] ∧ ctx.email = (env "EMAIL").getD [] ∧
      ctx.resume_link = (env "RESUME_LINK").getD [] ∧
      ctx.signing_secret = (env "SIGNING_SECRET").getD []) := by
  refine ⟨?_, ?_, ?_⟩
  · intro h
    have hcond : (truthyEnv (env "GITHUB_SERVER_URL")
        && truthyEnv (env "GITHUB_REPOSITORY")
        && truthyEnv (env "GITHUB_RUN_ID")) = false := by
      rcases h with h | h | h <;> rw [h] <;> simp [truthyEnv]
    unfold get_submission_context
    rw [if_neg]
    rw [hcond]
    simp
  · constructor
    · rintro ⟨ctx, hok⟩
      rw [get_ctx_ok_iff] at hok
      obtain ⟨h1, h2, h3, h4, h5, h6, h7, -⟩ := hok
      exact ⟨h1, h2, h3, h4, h5, h6, h7⟩
    · rintro ⟨h1, h2, h3, h4, h5, h6, h7⟩
      exact ⟨ctxOf env, (get_ctx_ok_iff env _).mpr
        ⟨h1, h2, h3, h4, h5, h6, h7, rfl⟩⟩
  · intro ctx hok
    rw [get_ctx_ok_iff] at hok
    rw [hok.2.2.2.2.2.2.2]
    exact ⟨rfl, rfl, rfl, rfl⟩

theorem claim_C10_witness :
    (∃ ctx, get_submission_context env_emptyName = .ok ctx) ∧
    get_submission_context env_emptyGithub
      = .error (.runtimeError missingEnvMsg) :=
  ⟨(claim_C10 env_emptyName).2.1.mpr
      ⟨by decide, by decide, by decide, by decide, by decide, by decide,
        by decide⟩,
    (claim_C10 env_emptyGithub).1 (Or.inl (by decide))⟩

/-- C5 (amended).  The payload always carries exactly the six keys; absence
of any of the seven required variables — or emptiness of one of the three
GitHub variables — makes the program fail with a configuration error before
any submission is attempted.  (Emptiness of `NAME`, `EMAIL` or `RESUME_LINK`
is *accepted*: see the counterexample.) -/
theorem claim_C5 (env : String → Option (List Nat)) (now : List Nat)
    (net : Request → HttpOutcome) :
    (∀ ctx, (mainPayload ctx now).map Prod.fst
      = [ofStr "timestamp", ofStr "name", ofStr "email", ofStr "resume_link",
         ofStr "repository_link", ofStr "action_run_link"]) ∧
    ((∃ v ∈ RequiredVars, env v = none ∨ (v ∈ GithubVars ∧ env v = some [])) →
      (mainRun env now net).requests = [] ∧
      ∃ e, (mainRun env now net).result = .error e ∧ isConfigError e = true) := by
  refine ⟨fun ctx => rfl, fun h => ?_⟩
  obtain ⟨e, -, hcfg, hmain⟩ := mainRun_config_failure now net h
  rw [hmain]
  exact ⟨rfl, e, rfl, hcfg⟩

theorem claim_C5_witness :
    (∃ v ∈ RequiredVars, env_missing v = none
        ∨ (v ∈ GithubVars ∧ env_missing v = some [])) ∧
    (mainRun env_missing now0 netTimeout).requests = [] ∧
    ∃ e, (mainRun env_missing now0 netTimeout).result = .error e ∧
      isConfigError e = true :=
  ⟨⟨"NAME", by decide, Or.inl rfl⟩,
    (claim_C5 env_missing now0 netTimeout).2 ⟨"NAME", by decide, Or.inl rfl⟩⟩

/-- C5 is refuted as stated: `NAME` resolved to the empty string is accepted,
context assembly succeeds with an empty `name`, and a submission attempt is
made (one request reaches the transport) even though a required payload
field is empty. -/
theorem claim_C5_counterexample :
    env_emptyName "NAME" = some [] ∧
    get_submission_context env_emptyName = .ok (ctxOf env_emptyName) ∧
    (ctxOf env_emptyName).name = [] ∧
    (mainRun env_emptyName now0 netTimeout).requests.length = 1 := by
  refine ⟨rfl, rfl, rfl, ?_⟩
  set_option maxRecDepth 10000 in rfl

/-- C6.  On every failure path of `submit_application` the `except` block
prints exactly two diagnostic lines — the first carrying the payload's
`action_run_link` value, the second carrying at most the first 15 characters
of the signature followed by the `...` ellipsis marker — and the full
signature (71 characters) can never occur in the masked line (38
characters); the exception is then re-raised unchanged: the result carries
exactly the error produced by the `try` block. -/
theorem claim_C6 (net : Request → HttpOutcome) (url : List Nat) (p : Payload)
    (secret : List Nat) (e : PyErr)
    (h : (submit_application net url p secret).result = .error e) :
    submitAttempt net url p secret = .error e ∧
    (submit_application net url p secret).printed
      = [ofStr "Submission failed. Action Link: "
           ++ pyStrOpt (payloadGet p (ofStr "action_run_link")),
         ofStr "Signature (masked): "
           ++ (generate_signature secret (canonical_json p)).take 15
           ++ ofStr "..."] ∧
    ((generate_signature secret (canonical_json p)).take 15).length ≤ 15 ∧
    ¬ List.IsInfix (generate_signature secret (canonical_json p))
        (ofStr "Signature (masked): "
          ++ (generate_signature secret (canonical_json p)).take 15
          ++ ofStr "...") := by
  unfold submit_application at h ⊢
  cases hatt : submitAttempt net url p secret with
  | ok r => rw [hatt] at h; exact absurd h (by simp)
  | error e' =>
    rw [hatt] at h
    simp only [Except.error.injEq] at h
    subst h
    refine ⟨rfl, rfl, List.length_take_le _ _, ?_⟩
    intro hinf
    have hle := hinf.length_le
    rw [generate_signature_length] at hle
    rw [List.length_append, List.length_append, List.length_take,
      generate_signature_length] at hle
    simp at hle
    have hm : (ofStr "Signature (masked): ").length = 20 := rfl
    have he : (ofStr "...").length = 3 := rfl
    omega

theorem claim_C6_witness :
    (submit_application netTimeout SUBMISSION_URL p0kv (ofStr "a")).result
        = .error (.urlError .timeout) ∧
    (submitAttempt netTimeout SUBMISSION_URL p0kv (ofStr "a")
        = .error (.urlError .timeout) ∧
      (submit_application netTimeout SUBMISSION_URL p0kv (ofStr "a")).printed
        = [ofStr "Submission failed. Action Link: "
             ++ pyStrOpt (payloadGet p0kv (ofStr "action_run_link")),
           ofStr "Signature (masked): "
             ++ (generate_signature (ofStr "a") (canonical_json p0kv)).take 15
             ++ ofStr "..."] ∧
      ((generate_signature (ofStr "a") (canonical_json p0kv)).take 15).length
          ≤ 15 ∧
      ¬ List.IsInfix (generate_signature (ofStr "a") (canonical_json p0kv))
          (ofStr "Signature (masked): "
            ++ (generate_signature (ofStr "a") (canonical_json p0kv)).take 15
            ++ ofStr "...")) :=
  ⟨rfl, claim_C6 netTimeout SUBMISSION_URL p0kv (ofStr "a")
    (.urlError .timeout) rfl⟩

/-- C8 (amended).  `submit_application` issues exactly the request built by
`requestOf`: its body is `canonical_json payload`, independent of the
secret; the URL, method and header names are fixed; and the only
secret-dependent component is the value of the `X-Signature-256` header,
which is exactly `generate_signature secret (canonical_json payload)` — the
secret influences the request only through the HMAC digest. -/
theorem claim_C8 (net : Request → HttpOutcome) (url : List Nat) (p : Payload)
    (s1 s2 : List Nat) :
    (submit_application net url p s1).requests = [requestOf url p s1] ∧
    (requestOf url p s1).data = (requestOf url p s2).data ∧
    (requestOf url p s1).url = (requestOf url p s2).url ∧
    (requestOf url p s1).method = (requestOf url p s2).method ∧
    (requestOf url p s1).headers.map Prod.fst
      = (requestOf url p s2).headers.map Prod.fst ∧
    (requestOf url p s1).headers
      = [(ofStr "Content-Type", ofStr "application/json; charset=utf-8"),
         (ofStr "X-Signature-256",
           generate_signature s1 (canonical_json p))] := by
  refine ⟨?_, rfl, rfl, rfl, rfl, rfl⟩
  unfold submit_application
  cases submitAttempt net url p s1 <;> rfl

/-- C8 is refuted as literally stated: the secret can occur as a substring
of the request headers.  For the one-character secret `"a"`, its UTF-8 bytes
occur inside the hexadecimal HMAC digest carried by the `X-Signature-256`
header of the request built for the payload `\x7b"k":"v"\x7d`. -/
theorem claim_C8_counterexample :
    (requestOf SUBMISSION_URL p0kv (ofStr "a")).headers
      = [(ofStr "Content-Type", ofStr "application/json; charset=utf-8"),
         (ofStr "X-Signature-256",
           generate_signature (ofStr "a") (canonical_json p0kv))] ∧
    List.IsInfix (utf8Str (ofStr "a"))
      (generate_signature (ofStr "a") (canonical_json p0kv)) := by
  refine ⟨rfl, ?_⟩
  set_option maxRecDepth 10000 in decide

/-- C4 (amended).  The response contract of `submit_application`: the
receipt value is returned unchanged exactly when the status is 200 and the
body decodes and parses to a dict with a truthy `receipt` member.  When the
body parses but the status is not 200 — whatever the parsed value is, the
short-circuiting `or` never reaches `data.get` — or when the status is 200
and the parsed dict's receipt is missing or falsy, the `RuntimeError`
carrying the status code and raw body text is raised.  But a body that
fails JSON parsing raises the decode error instead — a distinct kind that
carries neither status nor body — and at status 200 a non-dict body raises
the `data.get` error.  The last part ties `submit_application`'s result to
this response handling. -/
theorem claim_C4 (status : Nat) (raw : List Nat) :
    (∀ v, handleResponse status raw = .ok v ↔
      (status = 200 ∧ ∃ text data, utf8Decode raw = some text ∧
        jsonLoads text = some data ∧
        pyGet data (ofStr "receipt") = .ok (some v) ∧ truthy v = true)) ∧
    (∀ text data, utf8Decode raw = some text → jsonLoads text = some data →
      status ≠ 200 →
      handleResponse status raw
        = .error (.runtimeError (invalidResponseMsg status text))) ∧
    (∀ text data receiptOpt, utf8Decode raw = some text →
      jsonLoads text = some data →
      pyGet data (ofStr "receipt") = .ok receiptOpt →
      truthyOpt receiptOpt = false →
      handleResponse status raw
        = .error (.runtimeError (invalidResponseMsg status text))) ∧
    (∀ text data e, utf8Decode raw = some text → jsonLoads text = some data →
      status = 200 → pyGet data (ofStr "receipt") = .error e →
      handleResponse status raw = .error e) ∧
    (∀ text, utf8Decode raw = some text → jsonLoads text = none →
      handleResponse status raw = .error .jsonDecodeError) ∧
    (∀ (net : Request → HttpOutcome) (url : List Nat) (p : Payload)
        (secret : List Nat) (v : Json),
      net (requestOf url p secret) = .response status raw →
      ((submit_application net url p secret).result = .ok v ↔
        handleResponse status raw = .ok v)) := by
  refine ⟨?_, ?_, ?_, ?_, ?_, ?_⟩
  · intro v
    unfold handleResponse
    rcases hdec : utf8Decode raw with _ | text
    · simp [hdec]
    · rcases hload : jsonLoads text with _ | data
      · simp [hdec, hload]
      · simp only [hdec, hload]
        by_cases hst : status ≠ 200
        · rw [if_pos hst]
          constructor
          · intro h
            exact absurd h (by simp)
          · rintro ⟨hst2, -⟩
            exact absurd hst2 hst
        · rw [if_neg hst]
          push_neg at hst
          rcases hget : pyGet data (ofStr "receipt") with e | receiptOpt
          all_goals dsimp only
          · constructor
            · intro h
              exact absurd h (by simp)
            · rintro ⟨-, text', data', ht', hd', hg', -⟩
              rw [Option.some.injEq] at ht'
              subst ht'
              rw [hload, Option.some.injEq] at hd'
              subst hd'
              rw [hget] at hg'
              exact absurd hg' (by simp)
          · by_cases htf : truthyOpt receiptOpt = false
            · rw [if_pos htf]
              constructor
              · intro h
                exact absurd h (by simp)
              · rintro ⟨-, text', data', ht', hd', hg', htr'⟩
                exfalso
                rw [Option.some.injEq] at ht'
                subst ht'
                rw [hload, Option.some.injEq] at hd'
                subst hd'
                rw [hget] at hg'
                injection hg' with hg'
                subst hg'
                simp [truthyOpt, htr'] at htf
            · rw [if_neg htf]
              rcases receiptOpt with _ | v0
              · simp [truthyOpt] at htf
              · simp only [truthyOpt] at htf
                have htr' : truthy v0 = true := by
                  revert htf
                  cases truthy v0 <;> simp
                constructor
                · intro h
                  injection h with h
                  subst h
                  exact ⟨hst, text, data, rfl, hload, hget, htr'⟩
                · rintro ⟨-, text', data', ht', hd', hg', -⟩
                  rw [Option.some.injEq] at ht'
                  subst ht'
                  rw [hload, Option.some.injEq] at hd'
                  subst hd'
                  rw [hget] at hg'
                  injection hg' with hg'
                  injection hg' with hg'
                  rw [hg']
  · intro text data ht hd hst
    unfold handleResponse
    simp only [ht, hd]
    rw [if_pos hst]
  · intro text data receiptOpt ht hd hg htf
    unfold handleResponse
    simp only [ht, hd]
    by_cases hst : status ≠ 200
    · rw [if_pos hst]
    · rw [if_neg hst]
      simp only [hg]
      rw [if_pos htf]
  · intro text data e ht hd hst hg
    unfold handleResponse
    simp only [ht, hd, hg]
    rw [if_neg (by omega : ¬ status ≠ 200)]
  · intro text ht hload
    unfold handleResponse
    simp [ht, hload]
  · intro net url p secret v hnet
    unfold submit_application submitAttempt
    rw [hnet]
    cases hh : handleResponse status raw <;> simp [hh]

/-- C4 is refuted as literally stated: at status 200 a malformed body makes
the `try` block raise the JSON decode error, which is a different exception
kind from the `RuntimeError` that carries the status code and body text —
the failures are not collapsed into one error kind. -/
theorem claim_C4_counterexample :
    handleResponse 200 (ofStr "\x7b") = .error .jsonDecodeError ∧
    handleResponse 500 (ofStr "\x7b\"error\":\"oops\"\x7d")
      = .error (.runtimeError
          (invalidResponseMsg 500 (ofStr "\x7b\"error\":\"oops\"\x7d"))) ∧
    PyErr.jsonDecodeError
      ≠ .runtimeError (invalidResponseMsg 200 (ofStr "\x7b")) :=
  ⟨rfl, rfl, by decide⟩

theorem claim_C4_witness :
    handleResponse 200 (ofStr "\x7b\"receipt\":\"abc123\"\x7d")
      = .ok (Json.str (ofStr "abc123")) ∧
    handleResponse 201 (ofStr "[]")
      = .error (.runtimeError (invalidResponseMsg 201 (ofStr "[]"))) ∧
    handleResponse 200 (ofStr "\x7b\x7d")
      = .error (.runtimeError (invalidResponseMsg 200 (ofStr "\x7b\x7d"))) :=
  ⟨((claim_C4 200 (ofStr "\x7b\"receipt\":\"abc123\"\x7d")).1
      (Json.str (ofStr "abc123"))).mpr
      ⟨rfl, ofStr "\x7b\"receipt\":\"abc123\"\x7d",
        Json.obj [(ofStr "receipt", Json.str (ofStr "abc123"))],
        rfl, rfl, rfl, rfl⟩,
    (claim_C4 201 (ofStr "[]")).2.1 (ofStr "[]") (Json.arr [])
      rfl rfl (by decide),
    (claim_C4 200 (ofStr "\x7b\x7d")).2.2.1 (ofStr "\x7b\x7d")
      (Json.obj []) none rfl rfl rfl rfl⟩

end Submit
